import Mathlib

/-!
Shallow embedding of the duplicate-classification and safe-deletion-planning
engine of `emby_scanner.py` (the scanner core inside `run_scanner`,
lines 388-458, and the batch branch of `manual_select_wizard`,
lines 531-541).

Modelling conventions:
* JSON fields that may be absent are `Option`; `dict.get(k, d)` becomes
  `Option.getD`.  A JSON `null` value is modelled like an absent key.
* Byte sizes are `Nat`; season / episode numbers are `Int` (the code uses
  the sentinel `-1` for a missing number).
* Python code that can raise is embedded in `Except Unit`;
  `.error ()` stands for an uncaught exception.
* `info` (built by `get_video_info`) and the exact display strings are
  carried only where the scanner stores them; `info` itself is display-only
  text never used by grouping, filtering, selection or safety logic, so the
  normalized item does not model its contents.
-/

namespace EmbyScanner

/-- Library collection type (`CollectionType` of a media folder): the scanner
only processes `movies` and `tvshows` libraries. -/
inductive CType where
  | movies
  | tvshows
deriving DecidableEq, Repr

/-- Dedup strategy chosen at the start of `run_scanner`
(`self.scan_mode = "loose" if st == '2' else "strict"`). -/
inductive ScanMode where
  | strict
  | loose
deriving DecidableEq, Repr

/-- One entry of an item's `MediaSources` array: `source.get('Id')`,
`source.get('Size')`, `source.get('Path')`. -/
structure RawSource where
  sourceId : String
  size : Option Nat
  path : Option String
deriving DecidableEq, Repr

/-- One raw catalog record as fetched from `/emby/Items`:
`Id`, `Name`, `SeriesName`, `ParentIndexNumber`, `IndexNumber`,
`ProductionYear`, `MediaSources`. -/
structure RawItem where
  itemId : String
  name : String
  seriesName : Option String
  parentIndexNumber : Option Int
  indexNumber : Option Int
  productionYear : Option Int
  sources : List RawSource
deriving DecidableEq, Repr

/-- The dict appended to `groups[key]` at line 422:
`{'id': ..., 'media_source_id': ..., 'name': display_name, 'path': path,
'size': size, 'info': ..., 'year': year}` (the display-only `'info'` text is
not modelled). -/
structure MediaItem where
  id : String
  mediaSourceId : String
  name : String
  path : Option String
  size : Nat
  year : Option Int
deriving DecidableEq, Repr

/-- Grouping key (line 404-420).  In Python the key is an `int` for movies,
a 3-tuple for loose tv mode and a 4-tuple for strict tv mode; the three
shapes can never collide, so a sum type is a faithful rendering. -/
inductive GroupKey where
  | movie (size : Nat)
  | episodeLoose (series : String) (season episode : Int)
  | episodeStrict (series : String) (season episode : Int) (size : Nat)
deriving DecidableEq, Repr

/-- Python `"%02d" % n` / f-string `{n:02d}`: decimal rendering padded with
zeros to width 2 (the sign counts toward the width). -/
def pad2 (n : Int) : String :=
  let s := toString n
  if s.length < 2 then "0" ++ s else s

/-- `display_name` for a tvshows item (lines 406-410): `"{s_name} S{s:02d}E{e:02d}"`
when both season and episode numbers are known, otherwise the item's `Name`. -/
def displayName (it : RawItem) : String :=
  let s := it.parentIndexNumber.getD (-1)
  let e := it.indexNumber.getD (-1)
  if s ≠ -1 ∧ e ≠ -1 then
    it.seriesName.getD "" ++ " S" ++ pad2 s ++ "E" ++ pad2 e
  else it.name

/-- The grouping-key computation of lines 404-420, for one source of size
`size`:
tvshows + loose → `(s_name, s, e)`; tvshows + strict → `(s_name, s, e, size)`;
movies → `size` alone. -/
def groupKeyOf (ctype : CType) (mode : ScanMode) (it : RawItem) (size : Nat) :
    GroupKey :=
  match ctype with
  | .tvshows =>
    let sName := it.seriesName.getD ""
    let s := it.parentIndexNumber.getD (-1)
    let e := it.indexNumber.getD (-1)
    match mode with
    | .loose => .episodeLoose sName s e
    | .strict => .episodeStrict sName s e size
  | .movies => .movie size

/-- `groups` is a `defaultdict(list)`: a dict preserving key insertion order,
each bucket preserving item insertion order.  Modelled as an association
list; a new key is appended at the end, an existing bucket grows at its
tail. -/
def addToGroups (gs : List (GroupKey × List MediaItem)) (k : GroupKey)
    (x : MediaItem) : List (GroupKey × List MediaItem) :=
  match gs with
  | [] => [(k, [x])]
  | (k', v) :: rest =>
    if k' = k then (k', v ++ [x]) :: rest
    else (k', v) :: addToGroups rest k x

/-- The bucket stored under key `k` (empty when `k` is absent). -/
def lookupGroup (k : GroupKey) : List (GroupKey × List MediaItem) → List MediaItem
  | [] => []
  | (k', v) :: rest => if k' = k then v else lookupGroup k rest

/-- The per-library accumulator of the scan loop:
`lib_total_bytes`, `lib_file_count`, `groups`. -/
structure ScanState where
  totalBytes : Nat
  fileCount : Nat
  groups : List (GroupKey × List MediaItem)
deriving DecidableEq, Repr

/-- The body of `for source in sources:` (lines 395-430).  `if not size:
continue` skips a source whose `Size` is absent or zero; otherwise the
counters grow and the normalized item is appended to its key's bucket. -/
def processSource (ctype : CType) (mode : ScanMode) (it : RawItem)
    (src : RawSource) (st : ScanState) : ScanState :=
  match src.size with
  | none => st
  | some sz =>
    if sz = 0 then st
    else
      let nm := match ctype with
        | .tvshows => displayName it
        | .movies => it.name
      let x : MediaItem :=
        { id := it.itemId, mediaSourceId := src.sourceId, name := nm,
          path := src.path, size := sz, year := it.productionYear }
      { totalBytes := st.totalBytes + sz,
        fileCount := st.fileCount + 1,
        groups := addToGroups st.groups (groupKeyOf ctype mode it sz) x }

/-- The body of `for item in items:` (lines 388-430).  The guard
`if not sources: continue` is subsumed by folding over an empty list. -/
def processItem (ctype : CType) (mode : ScanMode) (st : ScanState)
    (it : RawItem) : ScanState :=
  it.sources.foldl (fun s src => processSource ctype mode it src s) st

/-- The whole normalization/grouping pass over a library's fetched items. -/
def buildState (ctype : CType) (mode : ScanMode) (items : List RawItem) :
    ScanState :=
  items.foldl (processItem ctype mode)
    { totalBytes := 0, fileCount := 0, groups := [] }

/-- `os.path.basename` for POSIX paths: the suffix after the last `/`
(the whole string when there is no `/`). -/
def basename (p : String) : String :=
  String.mk ((p.data.reverse.takeWhile (fun c => c ≠ '/')).reverse)

/-- The relation `key b ≤ key a`: `a` precedes `b` in a descending sort by
`key`. -/
def keyGE (key : α → Nat) (a b : α) : Prop := key b ≤ key a

instance (key : α → Nat) : DecidableRel (keyGE key) :=
  fun a b => Nat.decLe (key b) (key a)

instance (key : α → Nat) : IsTotal α (keyGE key) :=
  ⟨fun a b => Nat.le_total (key b) (key a)⟩

instance (key : α → Nat) : IsTrans α (keyGE key) :=
  ⟨fun _ _ _ h1 h2 => Nat.le_trans h2 h1⟩

/-- Python's `sorted(l, key=key, reverse=True)`: a stable sort placing
larger keys first.  Insertion sort with `keyGE key` computes the same
reordering (sorted descending by key, equal keys keeping input order). -/
def pySortDesc (key : α → Nat) (l : List α) : List α :=
  l.insertionSort (keyGE key)

/-- The sort key of line 451, `len(os.path.basename(x['path']))`.
`os.path.basename(None)` raises `TypeError`, so a missing path is an
error. -/
def basenameLen (x : MediaItem) : Except Unit Nat :=
  match x.path with
  | some p => .ok (basename p).length
  | none => .error ()

/-- CPython's `sorted(..., key=f)` first computes `f` on every element in
list order (propagating the first exception), then sorts the decorated
list. -/
def decorate : List MediaItem → Except Unit (List (MediaItem × Nat))
  | [] => .ok []
  | x :: t =>
    match x.path with
    | none => .error ()
    | some p =>
      match decorate t with
      | .error e => .error e
      | .ok rest => .ok ((x, (basename p).length) :: rest)

/-- The per-group sort of lines 446-451: loose tv groups are sorted by
`size` descending (keep the largest copy); every other group is sorted by
basename length descending (keep the longest file name). -/
def sortGroup (ctype : CType) (mode : ScanMode) (g : List MediaItem) :
    Except Unit (List MediaItem) :=
  if mode = ScanMode.loose ∧ ctype = CType.tvshows then
    .ok (pySortDesc (fun x => x.size) g)
  else
    match decorate g with
    | .error e => .error e
    | .ok pairs => .ok ((pySortDesc Prod.snd pairs).map Prod.fst)

/-- `set(g['path'] for g in group)` cardinality: the number of distinct
`path` values (a missing path counts as the single value `None`). -/
def distinctPathCount (g : List MediaItem) : Nat :=
  ((g.map (fun x => x.path)).dedup).length

/-- One entry of `lib_dup_list` (line 458):
`{'group_key': k, 'files': sorted_group}`. -/
structure DupGroup where
  key : GroupKey
  files : List MediaItem
deriving DecidableEq, Repr

/-- The `for k, group in dups.items():` loop body (lines 441-458): sort the
group (this may raise on a missing path), skip it when all members share
one path, otherwise add the drop sizes to `redundant` and record the sorted
group. -/
def processDups (ctype : CType) (mode : ScanMode) :
    List (GroupKey × List MediaItem) → Except Unit (List DupGroup × Nat)
  | [] => .ok ([], 0)
  | (k, g) :: rest =>
    match sortGroup ctype mode g with
    | .error e => .error e
    | .ok sortedg =>
      match processDups ctype mode rest with
      | .error e => .error e
      | .ok (dl, red) =>
        if distinctPathCount g ≤ 1 then
          .ok (dl, red)
        else
          .ok (⟨k, sortedg⟩ :: dl,
            (sortedg.tail.map (fun x => x.size)).sum + red)

/-- `dups = {k: v for k, v in groups.items() if len(v) > 1}` (line 436)
followed by the dups loop. -/
def scanGroups (ctype : CType) (mode : ScanMode)
    (gs : List (GroupKey × List MediaItem)) : Except Unit (List DupGroup × Nat) :=
  processDups ctype mode (gs.filter (fun kg => 1 < kg.2.length))

/-- The classification result of one library inside `run_scanner`. -/
structure LibScan where
  totalBytes : Nat
  fileCount : Nat
  dupList : List DupGroup
  redundant : Nat
deriving DecidableEq, Repr

/-- The full classification pipeline of `run_scanner` for one library:
normalize and bucket every source, then filter, sort and total the
duplicate groups. -/
def scanLibrary (ctype : CType) (mode : ScanMode) (items : List RawItem) :
    Except Unit LibScan :=
  let st := buildState ctype mode items
  match scanGroups ctype mode st.groups with
  | .error e => .error e
  | .ok (dl, red) =>
    .ok { totalBytes := st.totalBytes, fileCount := st.fileCount,
          dupList := dl, redundant := red }

/-- One group in the batch branch of `manual_select_wizard` (lines 533-541):
`keep_file = files[0]; del_files = files[1:]`; the group is unsafe when any
deletion candidate shares the keep's catalog id; a safe group forwards its
candidates, an unsafe one forwards nothing and prints a warning.  Returns
(forwarded tasks, warning printed).  A duplicate group always has at least
two files, so the `[]` case is unreachable (Python's `files[0]` would
raise there). -/
def autoGroupTasks (files : List MediaItem) : List MediaItem × Bool :=
  match files with
  | [] => ([], false)
  | keep :: dels =>
    if dels.all (fun f => f.id != keep.id) then (dels, false)
    else ([], true)

/-- The whole batch loop (`mode == 'a'`): accumulate `final_delete_tasks`
across groups, counting the ID-conflict warnings. -/
def autoSelect (gs : List DupGroup) : List MediaItem × Nat :=
  gs.foldl
    (fun acc g =>
      let r := autoGroupTasks g.files
      (acc.1 ++ r.1, acc.2 + if r.2 then 1 else 0))
    ([], 0)

/-- The code's selection key as a total function: the basename length of the
item's path.  Wherever the code's sort succeeds every path is present, and
there `bLen` coincides with the value `basenameLen` computes. -/
def bLen (x : MediaItem) : Nat := (basename (x.path.getD "")).length

/-- The basename of the item's path (total counterpart of the string the
code takes the length of). -/
def bName (x : MediaItem) : String := basename (x.path.getD "")

/-- Lexicographic comparison of code-point sequences — Python's `<` on
strings. -/
def lexLtChars : List Char → List Char → Bool
  | [], [] => false
  | [], _ :: _ => true
  | _ :: _, [] => false
  | a :: as, b :: bs =>
    if a < b then true else if b < a then false else lexLtChars as bs

/-- Python's `s <= t` for strings. -/
def pyStrLe (s t : String) : Bool := s == t || lexLtChars s.data t.data

/-- Modelled from the spec: the Selection Policy ordering rule as the spec
words it — primary key basename length, descending; tie-break key basename,
ascending lexicographic.  Stated only to compare the spec's rule with the
sort the code performs. -/
def specSelectionLE (x y : MediaItem) : Prop :=
  bLen y < bLen x ∨ (bLen x = bLen y ∧ pyStrLe (bName x) (bName y) = true)

instance : DecidableRel specSelectionLE := fun x y => by
  unfold specSelectionLE; infer_instance

/-! ### Concrete fixtures used by the verification theorems -/

/-- A normalized movie file: the name the scanner displays for a movie is
the raw record's `Name`; here the path doubles as a display name. -/
def mkFile (id p : String) (sz : Nat) : MediaItem :=
  { id := id, mediaSourceId := id ++ "-src", name := p, path := some p,
    size := sz, year := none }

def itemAA : MediaItem := mkFile "a1" "/y/aa.mkv" 1000
def itemBB : MediaItem := mkFile "b1" "/x/bb.mkv" 1000
def itemE14 : MediaItem := mkFile "e1" "/m/Show.2020.mkv" 7000
def itemE31 : MediaItem := mkFile "e2" "/m/Show.2020.1080p.BluRay.x265.mkv" 7000
def itemD1 : MediaItem := mkFile "merged" "/m/cut1.mkv" 4000
def itemD2 : MediaItem := mkFile "merged" "/m/cut2.mkv" 4000
def itemW1 : MediaItem := mkFile "w1" "/m/longest-name.mkv" 900
def itemW2 : MediaItem := mkFile "w2" "/m/short.mkv" 900
def itemC1 : MediaItem := mkFile "c1" "/m/only.mkv" 500
def itemP1 : MediaItem := mkFile "p1" "/m/same.mkv" 600
def itemP2 : MediaItem := mkFile "p2" "/m/same.mkv" 600
def itemL1 : MediaItem := mkFile "l1" "/tv/ep-small.mkv" 100
def itemL2 : MediaItem := mkFile "l2" "/tv/ep-large.mkv" 200

/-- A raw movie record with one media source. -/
def mkMovieRaw (id p : String) (sz : Option Nat) : RawItem :=
  { itemId := id, name := id, seriesName := none, parentIndexNumber := none,
    indexNumber := none, productionYear := none,
    sources := [{ sourceId := id ++ "-src", size := sz, path := some p }] }

def rawGood : RawItem := mkMovieRaw "g1" "/x/good.mkv" (some 1000)

/-- A record with a usable size whose media source has no `Path`. -/
def rawNoPath : RawItem :=
  { itemId := "n1", name := "n1", seriesName := none,
    parentIndexNumber := none, indexNumber := none, productionYear := none,
    sources := [{ sourceId := "n1-src", size := some 1000, path := none }] }

def rawZeroA : RawItem := mkMovieRaw "z1" "/z/a.mkv" (some 0)
def rawZeroB : RawItem := mkMovieRaw "z2" "/z/b.mkv" (some 0)
def rawNoSize : RawItem := mkMovieRaw "z3" "/z/c.mkv" none

/-- A raw episode record. -/
def mkEpRaw (id series : String) (s e : Option Int) : RawItem :=
  { itemId := id, name := id, seriesName := some series,
    parentIndexNumber := s, indexNumber := e, productionYear := none,
    sources := [] }

def rawEpA : RawItem := mkEpRaw "ta" "Show" (some 1) (some 2)
def rawEpB : RawItem := mkEpRaw "tb" "Show" (some 1) (some 2)
def rawEpSentinel : RawItem := mkEpRaw "ts" "Show" (some 1) none
def rawEpKnown : RawItem := mkEpRaw "tk" "Show" (some 1) (some 3)

/-- A mixed bucket map: one genuine duplicate group, one singleton, one
group whose members share a single path (Scenario B). -/
def gsW : List (GroupKey × List MediaItem) :=
  [(GroupKey.movie 1000, [itemBB, itemAA]),
   (GroupKey.movie 500, [itemC1]),
   (GroupKey.movie 600, [itemP1, itemP2])]

/-- The filter output the scanner computes on `gsW`. -/
def dlW : List DupGroup :=
  [⟨GroupKey.movie 1000, [itemBB, itemAA]⟩]

/-! ### Supporting lemmas about the stable descending sort -/

theorem pySortDesc_perm (key : α → Nat) (l : List α) :
    (pySortDesc key l).Perm l :=
  List.perm_insertionSort (keyGE key) l

theorem pySortDesc_sorted (key : α → Nat) (l : List α) :
    (pySortDesc key l).Sorted (keyGE key) :=
  List.sorted_insertionSort (keyGE key) l

/-- The head of the stable descending sort attains the maximal key. -/
theorem pySortDesc_head_max (key : α → Nat) (l : List α) (x : α)
    (hx : (pySortDesc key l).head? = some x) :
    x ∈ l ∧ ∀ y ∈ l, key y ≤ key x := by
  obtain ⟨t, ht⟩ : ∃ t, pySortDesc key l = x :: t := by
    cases h : pySortDesc key l with
    | nil => rw [h] at hx; cases hx
    | cons a t =>
      rw [h] at hx
      cases hx
      exact ⟨t, rfl⟩
  have hperm := pySortDesc_perm key l
  have hsorted := pySortDesc_sorted key l
  rw [ht] at hperm hsorted
  refine ⟨hperm.mem_iff.mp (List.mem_cons_self x t), fun y hy => ?_⟩
  rcases List.mem_cons.mp (hperm.mem_iff.mpr hy) with h | h
  · exact h ▸ Nat.le_refl _
  · exact List.rel_of_sorted_cons hsorted y h

/-- Inserting an element whose key is maximal among the selected class puts
it in front of every selected element. -/
theorem filter_orderedInsert_pos (key : α → Nat) (p : α → Bool) (x : α)
    (hx : p x = true) (hup : ∀ b, key x < key b → p b = false) :
    ∀ l : List α,
      (List.orderedInsert (keyGE key) x l).filter p = x :: l.filter p
  | [] => by simp [List.orderedInsert, hx]
  | b :: t => by
    by_cases h : keyGE key x b
    · simp [List.orderedInsert, if_pos h, List.filter_cons, hx]
    · have hb : p b = false := hup b (Nat.not_le.mp h)
      simp [List.orderedInsert, if_neg h, List.filter_cons, hb,
        filter_orderedInsert_pos key p x hx hup t]

/-- Inserting an unselected element does not change the selected
subsequence. -/
theorem filter_orderedInsert_neg (key : α → Nat) (p : α → Bool) (x : α)
    (hx : p x = false) :
    ∀ l : List α, (List.orderedInsert (keyGE key) x l).filter p = l.filter p
  | [] => by simp [List.orderedInsert, hx]
  | b :: t => by
    by_cases h : keyGE key x b
    · simp [List.orderedInsert, if_pos h, List.filter_cons, hx]
    · simp [List.orderedInsert, if_neg h, List.filter_cons,
        filter_orderedInsert_neg key p x hx t]

/-- Stability of the descending sort: the elements of any one key class
keep their original relative order. -/
theorem pySortDesc_filter_key (key : α → Nat) (n : Nat) :
    ∀ l : List α,
      (pySortDesc key l).filter (fun a => key a == n) =
        l.filter (fun a => key a == n)
  | [] => rfl
  | x :: t => by
    have ih := pySortDesc_filter_key key n t
    show (List.orderedInsert (keyGE key) x (pySortDesc key t)).filter _ = _
    by_cases hx : key x = n
    · rw [filter_orderedInsert_pos key _ x (by simp [hx])
        (fun b hb => by simp only [beq_eq_false_iff_ne]; omega), ih]
      simp [List.filter_cons, hx]
    · rw [filter_orderedInsert_neg key _ x (by simp [hx]), ih]
      simp [List.filter_cons, hx]

/-- Sorting the decorated list and projecting is sorting by the key, as long
as every decoration is the element's key. -/
theorem map_fst_orderedInsert (key : α → Nat) (x : α × Nat)
    (hx : x.2 = key x.1) :
    ∀ l : List (α × Nat), (∀ y ∈ l, y.2 = key y.1) →
      (List.orderedInsert (keyGE Prod.snd) x l).map Prod.fst =
        List.orderedInsert (keyGE key) x.1 (l.map Prod.fst)
  | [], _ => rfl
  | y :: t, h => by
    have hy := h y (List.mem_cons_self y t)
    have ht := fun z hz => h z (List.mem_cons_of_mem y hz)
    have hcond : keyGE Prod.snd x y ↔ keyGE key x.1 y.1 := by
      unfold keyGE
      rw [hx, hy]
    by_cases hc : keyGE Prod.snd x y
    · simp [List.orderedInsert, if_pos hc, if_pos (hcond.mp hc)]
    · simp [List.orderedInsert, if_neg hc, if_neg (fun hh => hc (hcond.mpr hh)),
        map_fst_orderedInsert key x hx t ht]

theorem map_fst_pySortDesc (key : α → Nat) :
    ∀ l : List (α × Nat), (∀ y ∈ l, y.2 = key y.1) →
      (pySortDesc Prod.snd l).map Prod.fst = pySortDesc key (l.map Prod.fst)
  | [], _ => rfl
  | x :: t, h => by
    have hx := h x (List.mem_cons_self x t)
    have ht := fun z hz => h z (List.mem_cons_of_mem x hz)
    show (List.orderedInsert _ x (pySortDesc Prod.snd t)).map Prod.fst = _
    rw [map_fst_orderedInsert key x hx _
        (fun y hy => ht y ((pySortDesc_perm _ t).mem_iff.mp hy)),
      map_fst_pySortDesc key t ht]
    rfl

/-! ### Supporting lemmas about the pipeline -/

/-- A successful decoration pairs every item with its basename length, and
guarantees that every path was present. -/
theorem decorate_ok :
    ∀ (l : List MediaItem) (pairs : List (MediaItem × Nat)),
      decorate l = .ok pairs →
      pairs = l.map (fun x => (x, bLen x)) ∧ ∀ x ∈ l, x.path ≠ none
  | [], pairs, h => by
    cases h
    exact ⟨rfl, fun x hx => absurd hx (List.not_mem_nil x)⟩
  | x :: t, pairs, h => by
    rw [decorate] at h
    split at h
    · cases h
    · rename_i p hp
      split at h
      · cases h
      · rename_i rest hd
        obtain ⟨hrest, hpaths⟩ := decorate_ok t rest hd
        cases h
        refine ⟨?_, fun y hy => ?_⟩
        · rw [hrest]
          simp [bLen, hp]
        · rcases List.mem_cons.mp hy with h | h
          · rw [h, hp]; exact Option.some_ne_none p
          · exact hpaths y h

theorem map_fst_decorated (g : List MediaItem) :
    (g.map (fun x => (x, bLen x))).map Prod.fst = g := by
  induction g with
  | nil => rfl
  | cons x t ih => simp only [List.map_cons, ih]

/-- A successful strict-key sort (any mode but loose-tv) is the stable
descending sort by basename length, and every input path was present. -/
theorem sortGroup_strict_ok (ctype : CType) (mode : ScanMode)
    (hmode : ¬(mode = ScanMode.loose ∧ ctype = CType.tvshows))
    (g s : List MediaItem) (h : sortGroup ctype mode g = .ok s) :
    s = pySortDesc bLen g ∧ ∀ x ∈ g, x.path ≠ none := by
  unfold sortGroup at h
  rw [if_neg hmode] at h
  split at h
  · cases h
  · rename_i pairs hd
    obtain ⟨hp, hpaths⟩ := decorate_ok g pairs hd
    cases h
    refine ⟨?_, hpaths⟩
    rw [hp, map_fst_pySortDesc bLen _
      (by intro y hy; simp at hy; obtain ⟨a, _, rfl⟩ := hy; rfl)]
    rw [map_fst_decorated]

/-- In an association list with no repeated keys, a key determines its
bucket. -/
theorem nodup_key_unique {β : Type _} :
    ∀ (l : List (GroupKey × β)), (l.map Prod.fst).Nodup →
      ∀ (k : GroupKey) (a b : β), (k, a) ∈ l → (k, b) ∈ l → a = b
  | [], _, k, a, b, ha, _ => absurd ha (List.not_mem_nil _)
  | (k', v) :: t, hnd, k, a, b, ha, hb => by
    rw [List.map_cons, List.nodup_cons] at hnd
    rcases List.mem_cons.mp ha with h1 | h1 <;>
      rcases List.mem_cons.mp hb with h2 | h2
    · cases h1; cases h2; rfl
    · cases h1
      exact absurd (List.mem_map_of_mem Prod.fst h2) hnd.1
    · cases h2
      exact absurd (List.mem_map_of_mem Prod.fst h1) hnd.1
    · exact nodup_key_unique t hnd.2 k a b h1 h2

/-- Effect of a bucket insertion on every lookup. -/
theorem lookupGroup_addToGroups :
    ∀ (gs : List (GroupKey × List MediaItem)) (k k' : GroupKey) (x : MediaItem),
      lookupGroup k (addToGroups gs k' x) =
        if k' = k then lookupGroup k gs ++ [x] else lookupGroup k gs
  | [], k, k', x => by
    by_cases h : k' = k <;> simp [addToGroups, lookupGroup, h]
  | (k0, v) :: t, k, k', x => by
    by_cases h0 : k0 = k'
    · subst h0
      by_cases h : k0 = k <;>
        simp [addToGroups, lookupGroup, h, if_pos rfl]
    · by_cases h : k0 = k
      · subst h
        have hne : ¬ k' = k0 := fun hh => h0 hh.symm
        simp [addToGroups, lookupGroup, if_neg h0, if_pos rfl, hne]
      · simp [addToGroups, lookupGroup, if_neg h0, if_neg h,
          lookupGroup_addToGroups t k k' x]

/-- Characterization of a successful dups loop: the recorded groups are
exactly the multi-path ones (in order), and the redundant total is the sum
of the drop sizes of the recorded groups. -/
theorem processDups_spec (ctype : CType) (mode : ScanMode) :
    ∀ (l : List (GroupKey × List MediaItem)) (dl : List DupGroup) (red : Nat),
      processDups ctype mode l = .ok (dl, red) →
      dl.map (fun d => d.key) =
          (l.filter (fun kg => 1 < distinctPathCount kg.2)).map Prod.fst ∧
      red = (dl.map (fun d => ((d.files.tail).map (fun x => x.size)).sum)).sum
  | [], dl, red, h => by
    cases h
    exact ⟨rfl, rfl⟩
  | (k, g) :: rest, dl, red, h => by
    rw [processDups] at h
    split at h
    · cases h
    · rename_i sortedg hs
      split at h
      · cases h
      · rename_i pr dl' red' hr
        obtain ⟨ih1, ih2⟩ := processDups_spec ctype mode rest dl' red' hr
        split at h
        · rename_i hp
          cases h
          constructor
          · rw [ih1, List.filter_cons]
            simp [Nat.not_lt.mpr hp]
          · exact ih2
        · rename_i hp
          cases h
          constructor
          · rw [List.map_cons, ih1, List.filter_cons]
            simp [Nat.lt_of_not_le hp]
          · rw [List.map_cons, List.sum_cons, ih2]

/-- The batch loop is the concatenation of the per-group safe candidates
together with a warning count of the unsafe groups. -/
theorem autoSelect_spec :
    ∀ (gs : List DupGroup) (acc : List MediaItem × Nat),
      gs.foldl
        (fun acc g =>
          let r := autoGroupTasks g.files
          (acc.1 ++ r.1, acc.2 + if r.2 then 1 else 0)) acc =
      (acc.1 ++ (gs.map (fun g => (autoGroupTasks g.files).1)).flatten,
       acc.2 + gs.countP (fun g => (autoGroupTasks g.files).2))
  | [], acc => by simp
  | g :: t, acc => by
    rw [List.foldl_cons, autoSelect_spec t]
    simp only [List.map_cons, List.flatten, List.countP_cons]
    by_cases hw : (autoGroupTasks g.files).2 <;>
      simp [hw, List.append_assoc, Nat.add_assoc, Nat.add_comm]

/-! ### Claim theorems -/

/-- C4: in strict mode, two episode records share a grouping key iff their
normalized `(seriesName, season, episode, size)` tuples coincide; and an
inserted item always lands in exactly the bucket of its own grouping key. -/
theorem episode_grouping_iff (a b : RawItem) (sa sb : Nat) :
    (groupKeyOf CType.tvshows ScanMode.strict a sa =
        groupKeyOf CType.tvshows ScanMode.strict b sb ↔
      (a.seriesName.getD "" = b.seriesName.getD "" ∧
       a.parentIndexNumber.getD (-1) = b.parentIndexNumber.getD (-1) ∧
       a.indexNumber.getD (-1) = b.indexNumber.getD (-1) ∧ sa = sb)) ∧
    ∀ (gs : List (GroupKey × List MediaItem)) (k k' : GroupKey) (x : MediaItem),
      lookupGroup k (addToGroups gs k' x) =
        if k' = k then lookupGroup k gs ++ [x] else lookupGroup k gs := by
  exact ⟨by simp [groupKeyOf], lookupGroup_addToGroups⟩

theorem episode_grouping_iff_witness :
    groupKeyOf CType.tvshows ScanMode.strict rawEpA 500 =
      groupKeyOf CType.tvshows ScanMode.strict rawEpB 500 ∧
    lookupGroup (GroupKey.movie 7) (addToGroups [] (GroupKey.movie 7) itemAA) =
      [itemAA] := by
  have h := episode_grouping_iff rawEpA rawEpB 500 500
  refine ⟨h.1.mpr ⟨rfl, rfl, rfl, rfl⟩, ?_⟩
  rw [h.2]
  rfl

/-- C5: two movie records share a grouping key iff their sizes coincide,
whatever else the records contain. -/
theorem movie_grouping_iff (mode : ScanMode) (a b : RawItem) (sa sb : Nat) :
    groupKeyOf CType.movies mode a sa = groupKeyOf CType.movies mode b sb ↔
      sa = sb := by
  simp [groupKeyOf]

theorem movie_grouping_iff_witness :
    groupKeyOf CType.movies ScanMode.strict rawGood 1000 =
      groupKeyOf CType.movies ScanMode.strict rawEpA 1000 :=
  (movie_grouping_iff ScanMode.strict rawGood rawEpA 1000 1000).mpr rfl

/-- C9: an episode whose season or episode number is the missing sentinel
`-1` never shares a grouping key with an episode whose both numbers are
known (non-negative), in either scan mode, even for equal series and
size. -/
theorem sentinel_never_matches (mode : ScanMode) (a b : RawItem) (sa sb : Nat)
    (ha : a.parentIndexNumber.getD (-1) = -1 ∨ a.indexNumber.getD (-1) = -1)
    (hb1 : 0 ≤ b.parentIndexNumber.getD (-1))
    (hb2 : 0 ≤ b.indexNumber.getD (-1)) :
    groupKeyOf CType.tvshows mode a sa ≠ groupKeyOf CType.tvshows mode b sb := by
  cases mode with
  | loose =>
    intro h
    simp only [groupKeyOf, GroupKey.episodeLoose.injEq] at h
    obtain ⟨-, hs, he⟩ := h
    rcases ha with ha | ha <;> omega
  | strict =>
    intro h
    simp only [groupKeyOf, GroupKey.episodeStrict.injEq] at h
    obtain ⟨-, hs, he, -⟩ := h
    rcases ha with ha | ha <;> omega

theorem sentinel_never_matches_witness :
    groupKeyOf CType.tvshows ScanMode.strict rawEpSentinel 500 ≠
      groupKeyOf CType.tvshows ScanMode.strict rawEpKnown 500 :=
  sentinel_never_matches ScanMode.strict rawEpSentinel rawEpKnown 500 500
    (Or.inr rfl) (by decide) (by decide)

/-- C8: a source whose `Size` is absent or zero leaves the whole scan state
untouched — no normalized item, no count, no bucket; in particular a
library of only unusable records scans to an empty, duplicate-free
result. -/
theorem normalizer_drops_unusable (ctype : CType) (mode : ScanMode)
    (it : RawItem) (src : RawSource)
    (h : src.size = none ∨ src.size = some 0) (st : ScanState) :
    processSource ctype mode it src st = st ∧
    scanLibrary CType.movies ScanMode.strict [rawZeroA, rawZeroB, rawNoSize] =
      .ok { totalBytes := 0, fileCount := 0, dupList := [], redundant := 0 } := by
  constructor
  · rcases h with h | h <;> simp [processSource, h]
  · rfl

theorem normalizer_drops_unusable_witness :
    processSource CType.movies ScanMode.strict rawNoSize
        { sourceId := "z3-src", size := none, path := some "/z/c.mkv" }
        { totalBytes := 0, fileCount := 0, groups := [] } =
      { totalBytes := 0, fileCount := 0, groups := [] } ∧
    scanLibrary CType.movies ScanMode.strict [rawZeroA, rawZeroB, rawNoSize] =
      .ok { totalBytes := 0, fileCount := 0, dupList := [], redundant := 0 } :=
  normalizer_drops_unusable CType.movies ScanMode.strict rawNoSize
    { sourceId := "z3-src", size := none, path := some "/z/c.mkv" }
    (Or.inl rfl) { totalBytes := 0, fileCount := 0, groups := [] }

/-- C7 evaluated at the claim's own example: a record with a usable size but
a missing path makes the classification pipeline raise (a `TypeError` inside
`os.path.basename` at line 451), modelled as `.error ()` — the pipeline is
not total. -/
theorem scanner_error_on_missing_path :
    scanLibrary CType.movies ScanMode.strict [rawGood, rawNoPath] =
      .error () := rfl

/-- C1: in batch auto mode an id collision with the keep makes the whole
group unsafe — a warning and zero forwarded candidates — so no forwarded
candidate ever shares its group keep's id; the forwarded tasks are exactly
the safe groups' candidates, with one warning per unsafe group. -/
theorem auto_mode_id_safety (keep : MediaItem) (dels : List MediaItem)
    (gs : List DupGroup) :
    ((∃ d ∈ dels, d.id = keep.id) →
        autoGroupTasks (keep :: dels) = ([], true)) ∧
    (∀ t ∈ (autoGroupTasks (keep :: dels)).1, t.id ≠ keep.id) ∧
    autoSelect gs =
      ((gs.map (fun g => (autoGroupTasks g.files).1)).flatten,
       gs.countP (fun g => (autoGroupTasks g.files).2)) := by
  refine ⟨?_, ?_, ?_⟩
  · rintro ⟨d, hd, hid⟩
    have hall : dels.all (fun f => f.id != keep.id) = false := by
      rw [List.all_eq_false]
      exact ⟨d, hd, by simp [hid]⟩
    simp [autoGroupTasks, hall]
  · intro t ht
    simp only [autoGroupTasks] at ht
    by_cases hall : dels.all (fun f => f.id != keep.id) = true
    · rw [if_pos hall] at ht
      intro he
      have := List.all_eq_true.mp hall t ht
      simp [he] at this
    · rw [if_neg hall] at ht
      simp at ht
  · rw [autoSelect, autoSelect_spec]
    simp

theorem auto_mode_id_safety_witness :
    autoGroupTasks [itemD1, itemD2] = ([], true) ∧
    autoSelect [⟨GroupKey.movie 4000, [itemD1, itemD2]⟩] = ([], 1) := by
  have h := auto_mode_id_safety itemD1 [itemD2]
    [⟨GroupKey.movie 4000, [itemD1, itemD2]⟩]
  refine ⟨h.1 ⟨itemD2, List.mem_cons_self itemD2 [], rfl⟩, ?_⟩
  rw [h.2.2]
  rfl

/-- C2 counterexample: on a basename-length tie the code keeps the input
order (Python's sort is stable) and performs no lexicographic tie-break:
the spec's ordering rule would put `aa.mkv` before `bb.mkv`, the code keeps
`bb.mkv` because it arrived first. -/
theorem selection_tiebreak_counterexample :
    sortGroup CType.movies ScanMode.strict [itemBB, itemAA] =
      .ok [itemBB, itemAA] ∧
    bLen itemBB = bLen itemAA ∧
    specSelectionLE itemAA itemBB ∧
    ¬ specSelectionLE itemBB itemAA := by
  refine ⟨rfl, rfl, ?_, ?_⟩ <;> decide

/-- C2 (amended): the selection orders a group by basename length
descending, ties kept in input order (stable sort) rather than broken
lexicographically; the keep attains the maximal basename length, and in
Scenario E the 31-character name is kept from either input order. -/
theorem selection_policy_characterization (ctype : CType) (mode : ScanMode)
    (hmode : ¬(mode = ScanMode.loose ∧ ctype = CType.tvshows))
    (g s : List MediaItem) (h : sortGroup ctype mode g = .ok s) :
    s.Perm g ∧ s.Sorted (keyGE bLen) ∧
    (∀ n, s.filter (fun x => bLen x == n) =
      g.filter (fun x => bLen x == n)) ∧
    (∀ x, s.head? = some x → x ∈ g ∧ ∀ y ∈ g, bLen y ≤ bLen x) ∧
    sortGroup CType.movies ScanMode.strict [itemE14, itemE31] =
      .ok [itemE31, itemE14] ∧
    sortGroup CType.movies ScanMode.strict [itemE31, itemE14] =
      .ok [itemE31, itemE14] := by
  obtain ⟨hs, -⟩ := sortGroup_strict_ok ctype mode hmode g s h
  subst hs
  exact ⟨pySortDesc_perm bLen g, pySortDesc_sorted bLen g,
    fun n => pySortDesc_filter_key bLen n g,
    fun x hx => pySortDesc_head_max bLen g x hx, rfl, rfl⟩

theorem selection_policy_characterization_witness :
    ([itemE31, itemE14] : List MediaItem).Perm [itemE14, itemE31] ∧
    ([itemE31, itemE14] : List MediaItem).Sorted (keyGE bLen) ∧
    (∀ n, ([itemE31, itemE14] : List MediaItem).filter
        (fun x => bLen x == n) =
      ([itemE14, itemE31] : List MediaItem).filter (fun x => bLen x == n)) ∧
    (∀ x, ([itemE31, itemE14] : List MediaItem).head? = some x →
      x ∈ [itemE14, itemE31] ∧ ∀ y ∈ [itemE14, itemE31], bLen y ≤ bLen x) ∧
    sortGroup CType.movies ScanMode.strict [itemE14, itemE31] =
      .ok [itemE31, itemE14] ∧
    sortGroup CType.movies ScanMode.strict [itemE31, itemE14] =
      .ok [itemE31, itemE14] :=
  selection_policy_characterization CType.movies ScanMode.strict
    (by decide) [itemE14, itemE31] [itemE31, itemE14] rfl

/-- C3 counterexample: two permutations of the same pair of files with a
basename-length tie sort to different orders, so the keep (index 0)
depends on the input order. -/
theorem selection_perm_counterexample :
    ([itemAA, itemBB] : List MediaItem).Perm [itemBB, itemAA] ∧
    sortGroup CType.movies ScanMode.strict [itemBB, itemAA] =
      .ok [itemBB, itemAA] ∧
    sortGroup CType.movies ScanMode.strict [itemAA, itemBB] =
      .ok [itemAA, itemBB] ∧
    ([itemBB, itemAA] : List MediaItem).head? ≠
      ([itemAA, itemBB] : List MediaItem).head? := by
  refine ⟨List.Perm.swap itemBB itemAA [], rfl, rfl, ?_⟩
  decide

/-- C3 (amended): the selection is a deterministic function of the input
list, and across permutations the keep is invariant whenever the maximal
basename length is attained by a unique member. -/
theorem selection_perm_invariant_unique_max (ctype : CType)
    (mode : ScanMode) (hmode : ¬(mode = ScanMode.loose ∧ ctype = CType.tvshows))
    (g1 g2 s1 s2 : List MediaItem) (hperm : g1.Perm g2)
    (h1 : sortGroup ctype mode g1 = .ok s1)
    (h2 : sortGroup ctype mode g2 = .ok s2)
    (k1 k2 : MediaItem) (hk1 : s1.head? = some k1)
    (hk2 : s2.head? = some k2)
    (huniq : ∀ x ∈ g1, ∀ y ∈ g1, (∀ z ∈ g1, bLen z ≤ bLen x) →
      (∀ z ∈ g1, bLen z ≤ bLen y) → x = y) :
    k1 = k2 := by
  obtain ⟨hs1, -⟩ := sortGroup_strict_ok ctype mode hmode g1 s1 h1
  obtain ⟨hs2, -⟩ := sortGroup_strict_ok ctype mode hmode g2 s2 h2
  subst hs1
  subst hs2
  obtain ⟨hm1, hmax1⟩ := pySortDesc_head_max bLen g1 k1 hk1
  obtain ⟨hm2, hmax2⟩ := pySortDesc_head_max bLen g2 k2 hk2
  exact huniq k1 hm1 k2 (hperm.mem_iff.mpr hm2) hmax1
    (fun z hz => hmax2 z (hperm.mem_iff.mp hz))

theorem selection_perm_invariant_unique_max_witness :
    sortGroup CType.movies ScanMode.strict [itemW2, itemW1] =
      .ok [itemW1, itemW2] ∧
    sortGroup CType.movies ScanMode.strict [itemW1, itemW2] =
      .ok [itemW1, itemW2] ∧
    itemW1 = itemW1 :=
  ⟨rfl, rfl,
    selection_perm_invariant_unique_max CType.movies ScanMode.strict
      (by decide) [itemW2, itemW1] [itemW1, itemW2] [itemW1, itemW2]
      [itemW1, itemW2] (List.Perm.swap itemW1 itemW2 []) rfl rfl
      itemW1 itemW1 rfl rfl (by decide)⟩

/-- C6: a bucket appears in the duplicate-filter output iff it has more
than one member and its members span more than one distinct path, and the
reported redundant size is a sum drawn solely from the groups that
appear. -/
theorem dup_filter_iff (ctype : CType) (mode : ScanMode)
    (gs : List (GroupKey × List MediaItem)) (dl : List DupGroup) (red : Nat)
    (hnd : (gs.map Prod.fst).Nodup)
    (h : scanGroups ctype mode gs = .ok (dl, red)) :
    (∀ k g, (k, g) ∈ gs →
      ((∃ fs, DupGroup.mk k fs ∈ dl) ↔
        1 < g.length ∧ 1 < distinctPathCount g)) ∧
    red = (dl.map (fun d => ((d.files.tail).map (fun x => x.size)).sum)).sum := by
  obtain ⟨hkeys, hred⟩ :=
    processDups_spec ctype mode (gs.filter (fun kg => 1 < kg.2.length)) dl red h
  refine ⟨fun k g hmem => ⟨?_, ?_⟩, hred⟩
  · rintro ⟨fs, hfs⟩
    have hk : k ∈ dl.map (fun d => d.key) :=
      List.mem_map_of_mem (fun d => d.key) hfs
    rw [hkeys] at hk
    obtain ⟨⟨k', g'⟩, hmem', hk'⟩ := List.mem_map.mp hk
    have hkk : k' = k := hk'
    obtain ⟨hmem'', hpath⟩ := List.mem_filter.mp hmem'
    obtain ⟨hmemgs, hlen⟩ := List.mem_filter.mp hmem''
    rw [hkk] at hmemgs
    have hgg : g' = g := nodup_key_unique gs hnd k g' g hmemgs hmem
    rw [hgg] at hlen hpath
    exact ⟨by simpa using hlen, by simpa using hpath⟩
  · rintro ⟨hlen, hpath⟩
    have hmem1 : (k, g) ∈ gs.filter (fun kg => 1 < kg.2.length) :=
      List.mem_filter.mpr ⟨hmem, by simpa using hlen⟩
    have hmem2 : (k, g) ∈ (gs.filter (fun kg => 1 < kg.2.length)).filter
        (fun kg => 1 < distinctPathCount kg.2) :=
      List.mem_filter.mpr ⟨hmem1, by simpa using hpath⟩
    have hk : k ∈ dl.map (fun d => d.key) := by
      rw [hkeys]
      exact List.mem_map_of_mem Prod.fst hmem2
    obtain ⟨d, hd, hdk⟩ := List.mem_map.mp hk
    refine ⟨d.files, ?_⟩
    cases d
    cases hdk
    exact hd

theorem dup_filter_iff_witness :
    (∀ k g, (k, g) ∈ gsW →
      ((∃ fs, DupGroup.mk k fs ∈ dlW) ↔
        1 < g.length ∧ 1 < distinctPathCount g)) ∧
    1000 = (dlW.map
      (fun d => ((d.files.tail).map (fun x => x.size)).sum)).sum :=
  dup_filter_iff CType.movies ScanMode.strict gsW dlW 1000 (by decide) rfl

/-- C10: the undocumented loose mode groups an episodic library by
(series, season, episode) with the size omitted — two copies of one
episode with different sizes share a bucket — and sorts such a group by
size descending, so the keep is a member of maximal size. -/
theorem loose_mode_behaviour (a b : RawItem) (sa sb : Nat)
    (g : List MediaItem) :
    (groupKeyOf CType.tvshows ScanMode.loose a sa =
        groupKeyOf CType.tvshows ScanMode.loose b sb ↔
      (a.seriesName.getD "" = b.seriesName.getD "" ∧
       a.parentIndexNumber.getD (-1) = b.parentIndexNumber.getD (-1) ∧
       a.indexNumber.getD (-1) = b.indexNumber.getD (-1))) ∧
    sortGroup CType.tvshows ScanMode.loose g =
      .ok (pySortDesc (fun x => x.size) g) ∧
    (pySortDesc (fun x => x.size) g).Perm g ∧
    ∀ x, (pySortDesc (fun x => x.size) g).head? = some x →
      x ∈ g ∧ ∀ y ∈ g, y.size ≤ x.size := by
  refine ⟨by simp [groupKeyOf], ?_, pySortDesc_perm _ g,
    fun x hx => pySortDesc_head_max _ g x hx⟩
  rw [sortGroup, if_pos ⟨rfl, rfl⟩]

theorem loose_mode_behaviour_witness :
    groupKeyOf CType.tvshows ScanMode.loose rawEpA 100 =
      groupKeyOf CType.tvshows ScanMode.loose rawEpB 200 ∧
    sortGroup CType.tvshows ScanMode.loose [itemL1, itemL2] =
      .ok [itemL2, itemL1] ∧
    (itemL2 ∈ [itemL1, itemL2] ∧
      ∀ y ∈ [itemL1, itemL2], y.size ≤ itemL2.size) := by
  have h := loose_mode_behaviour rawEpA rawEpB 100 200 [itemL1, itemL2]
  refine ⟨h.1.mpr ⟨rfl, rfl, rfl⟩, ?_, h.2.2.2 itemL2 rfl⟩
  rw [h.2.1]
  rfl

end EmbyScanner
